import Mathlib

/-!
Shallow embedding of `queue.go` from the levelq repository: a persistent
FIFO queue layered over an ordered key-value store (LevelDB).  Keys are the
8-byte big-endian encodings of uint64 identifiers, so the store's ascending
key order coincides with numeric order of the decoded identifiers.  We model
the store contents as the ascending list of (decoded key, value) pairs, and
all uint64 arithmetic explicitly modulo 2^64.
-/

namespace LevelQ

/-- 2^64, the modulus of Go's uint64 arithmetic. -/
def U64 : Nat := 18446744073709551616

theorem U64_eq : U64 = 2 ^ 64 := by norm_num [U64]

/-- uint64 addition: `a + b` wrapped modulo 2^64 (Go `a + b` on uint64). -/
def add64 (a b : Nat) : Nat := (a + b) % U64

/-- uint64 subtraction: `a - b` wrapped modulo 2^64 (Go `a - b` on uint64). -/
def sub64 (a b : Nat) : Nat := (a + (U64 - b % U64)) % U64

/-- `var MaxQueueSize uint64 = math.MaxUint64 >> 2` (= 2^62 - 1). -/
def MaxQueueSize : Nat := 4611686018427387903

/-- The error values of queue.go.  `storeNotFound` is LevelDB's not-found
error returned by `db.Get` when no entry exists under the key; the queue
code propagates it verbatim. -/
inductive QueueErr where
  | outOfBounds   -- ErrOutOfBounds
  | dbClosed      -- ErrDBClosed
  | empty         -- ErrEmpty
  | full          -- ErrFull
  | storeNotFound -- leveldb.ErrNotFound, passed through by getValueByID
  deriving DecidableEq, Repr

/-- An opaque store-level failure (I/O error from LevelDB `Close` or from
`os.RemoveAll`), identified by a code. -/
inductive StoreErr where
  | ioErr (code : Nat)
  deriving DecidableEq, Repr

/-- The LevelDB contents, as the ascending list of (decoded key, value)
pairs — the order the queue's iterator visits them in. -/
abbrev Store (α : Type) := List (Nat × α)

/-- `db.Put key value`: insert keeping ascending key order, replacing an
existing entry with the same key. -/
def storePut {α : Type} : Store α → Nat → α → Store α
  | [], k, v => [(k, v)]
  | (k', v') :: rest, k, v =>
    if k < k' then (k, v) :: (k', v') :: rest
    else if k = k' then (k, v) :: rest
    else (k', v') :: storePut rest k v

/-- `db.Get key`: `some value` when an entry exists, `none` (LevelDB
not-found) otherwise. -/
def storeGet {α : Type} : Store α → Nat → Option α
  | [], _ => none
  | (k', v') :: rest, k => if k = k' then some v' else storeGet rest k

/-- `db.Delete key`: remove the entry with the given key, if present. -/
def storeDelete {α : Type} : Store α → Nat → Store α
  | [], _ => []
  | (k', v') :: rest, k => if k = k' then rest else (k', v') :: storeDelete rest k

/-- The in-memory state of `Queue` from queue.go: the backing store, the
`head` and `tail` uint64 counters, and the `isOpen` flag. -/
structure Queue (α : Type) where
  store : Store α
  head : Nat
  tail : Nat
  isOpen : Bool
  deriving DecidableEq, Repr

/-- `Length`: `(MaxQueueSize + q.tail - q.head) % MaxQueueSize`, where the
addition and subtraction are Go uint64 operations (mod 2^64) and the final
`%` is by the queue-size parameter `N` (the current value of the
`MaxQueueSize` variable). -/
def Length {α : Type} (N : Nat) (q : Queue α) : Nat :=
  sub64 (add64 N q.tail) q.head % N

/-- The tail of `getValueByID` after the bounds checks: `db.Get` by the
encoded id, returning the value or propagating the store's not-found error
unchanged. -/
def storeLookup {α : Type} (s : Store α) (id : Nat) : Except QueueErr α :=
  match storeGet s id with
  | some v => Except.ok v
  | none => Except.error QueueErr.storeNotFound

/-- `getValueByID` from queue.go: the Empty check (`Length() == 0`), the
two ring-bounds checks, then the store lookup. -/
def getValueByID {α : Type} (N : Nat) (q : Queue α) (id : Nat) : Except QueueErr α :=
  if Length N q = 0 then Except.error QueueErr.empty
  else if q.head < q.tail then
    if id ≤ q.head ∨ q.tail < id then Except.error QueueErr.outOfBounds
    else storeLookup q.store id
  else if q.tail < q.head then
    if q.tail < id ∧ id ≤ q.head then Except.error QueueErr.outOfBounds
    else storeLookup q.store id
  else storeLookup q.store id

/-- `enqueue` from queue.go.  Returns the result together with the
posterior state (the Go method mutates the receiver only on the success
path). -/
def enqueue {α : Type} (N : Nat) (q : Queue α) (value : α) :
    Except QueueErr Unit × Queue α :=
  if q.isOpen = false then (Except.error QueueErr.dbClosed, q)
  else
    let nextID := add64 q.tail 1 % N
    if nextID = q.head then (Except.error QueueErr.full, q)
    else (Except.ok (),
      { q with store := storePut q.store nextID value, tail := nextID })

/-- `dequeue` from queue.go: closed check, bounds-checked lookup of
`(head+1) % N`, delete, then advance `head`.  (The in-memory store model's
delete cannot fail, so the delete-failure branch of the Go code is not
reachable here.) -/
def dequeue {α : Type} (N : Nat) (q : Queue α) : Except QueueErr α × Queue α :=
  if q.isOpen = false then (Except.error QueueErr.dbClosed, q)
  else
    let nextID := add64 q.head 1 % N
    match getValueByID N q nextID with
    | Except.error e => (Except.error e, q)
    | Except.ok v => (Except.ok v,
        { q with store := storeDelete q.store nextID, head := nextID })

/-- `Close` from queue.go.  `r` is the outcome of `q.db.Close()` (an
environmental event): `none` means the store handle closed successfully. -/
def close {α : Type} (r : Option StoreErr) (q : Queue α) :
    Except StoreErr Unit × Queue α :=
  if q.isOpen = false then (Except.ok (), q)
  else match r with
    | some e => (Except.error e, q)
    | none => (Except.ok (), { q with head := 0, tail := 0, isOpen := false })

/-- The result of `os.RemoveAll` modelled as an `Except`. -/
def rmResult : Option StoreErr → Except StoreErr Unit
  | some e => Except.error e
  | none => Except.ok ()

/-- `Drop` from queue.go: `Close`, and on its success `os.RemoveAll` on the
data directory.  `closeR` / `removeR` are the outcomes of the store close
and of the directory removal.  The middle component records whether the
removal was invoked at all. -/
def Drop {α : Type} (closeR removeR : Option StoreErr) (q : Queue α) :
    Except StoreErr Unit × Bool × Queue α :=
  match close closeR q with
  | (Except.error e, q') => (Except.error e, false, q')
  | (Except.ok _, q') => (rmResult removeR, true, q')

/-- `init` from queue.go: if the iterator yields a first key, set
`head = keyToID(firstKey) - 1` (uint64 subtraction); if it yields a last
key, set `tail = keyToID(lastKey)`. -/
def init {α : Type} (q : Queue α) : Queue α :=
  let q1 := match q.store.head? with
    | some kv => { q with head := sub64 kv.1 1 }
    | none => q
  match q1.store.getLast? with
    | some kv => { q1 with tail := kv.1 }
    | none => q1

/-- `OpenQueue`: fresh state (head = tail = 0, open) over the given store
contents, then `init`.  (The database-open failure path is external.) -/
def OpenQueue {α : Type} (s : Store α) : Queue α :=
  init { store := s, head := 0, tail := 0, isOpen := true }

/-- Sequentially enqueue a list of payloads, stopping at the first error. -/
def enqueueAll {α : Type} (N : Nat) (q : Queue α) :
    List α → Except QueueErr Unit × Queue α
  | [] => (Except.ok (), q)
  | v :: vs =>
    match enqueue N q v with
    | (Except.ok _, q') => enqueueAll N q' vs
    | (Except.error e, q') => (Except.error e, q')

/-- Perform `m` dequeues, collecting the returned values in order, stopping
at the first error. -/
def dequeueAll {α : Type} (N : Nat) (q : Queue α) :
    Nat → Except QueueErr (List α) × Queue α
  | 0 => (Except.ok [], q)
  | m + 1 =>
    match dequeue N q with
    | (Except.ok v, q') =>
      match dequeueAll N q' m with
      | (Except.ok vs, q'') => (Except.ok (v :: vs), q'')
      | (Except.error e, q'') => (Except.error e, q'')
    | (Except.error e, q') => (Except.error e, q')

/-- The store contents after enqueuing the payloads `vs` under consecutive
identifiers starting at `a`. -/
def seqStore {α : Type} (a : Nat) : List α → Store α
  | [] => []
  | v :: vs => (a, v) :: seqStore (a + 1) vs

/-! ### Arithmetic helper lemmas about the uint64 operations -/

theorem add64_eq_of_lt {a b : Nat} (h : a + b < U64) : add64 a b = a + b := by
  unfold add64 U64 at *; omega

theorem sub64_eq_of_le {a b : Nat} (hba : b ≤ a) (ha : a < U64) :
    sub64 a b = a - b := by
  unfold sub64 U64 at *; omega

theorem sub64_add64_cancel (N t : Nat) (hN : N < U64) :
    sub64 (add64 N t) t = N := by
  unfold sub64 add64 U64 at *; omega

theorem U64_big : (2 : Nat) ^ 62 < U64 := by norm_num [U64]

/-! ### Length characterisations -/

theorem Length_eq_of_le {α : Type} {N : Nat} {q : Queue α} (hN : N ≤ 2 ^ 62)
    (hh : q.head ≤ q.tail) (ht : q.tail ≤ 2 ^ 62) :
    Length N q = (q.tail - q.head) % N := by
  unfold Length
  rw [add64_eq_of_lt (by have := U64_big; unfold U64 at *; omega)]
  rw [sub64_eq_of_le (by omega) (by have := U64_big; unfold U64 at *; omega)]
  have h : N + q.tail - q.head = (q.tail - q.head) + N := by omega
  rw [h, Nat.add_mod_right]

theorem Length_eq_of_gt {α : Type} {N : Nat} {q : Queue α} (hN : N ≤ 2 ^ 62)
    (hlt : q.tail < q.head) (hh : q.head < N) :
    Length N q = N + q.tail - q.head := by
  unfold Length
  rw [add64_eq_of_lt (by have := U64_big; unfold U64 at *; omega)]
  rw [sub64_eq_of_le (by omega) (by have := U64_big; unfold U64 at *; omega)]
  exact Nat.mod_eq_of_lt (by omega)

theorem Length_eq_zero_of_eq {α : Type} {N : Nat} {q : Queue α}
    (hN : N < U64) (h : q.head = q.tail) : Length N q = 0 := by
  unfold Length
  rw [h, sub64_add64_cancel N q.tail hN, Nat.mod_self]

/-! ### Store lemmas for consecutive-key runs -/

theorem storePut_seqStore {α : Type} (ws : List α) (a : Nat) (v : α) :
    storePut (seqStore a ws) (a + ws.length) v = seqStore a (ws ++ [v]) := by
  induction ws generalizing a with
  | nil => simp [seqStore, storePut]
  | cons w ws ih =>
    simp only [seqStore, List.length_cons, List.cons_append]
    rw [storePut]
    rw [if_neg (by omega), if_neg (by omega)]
    have h : a + (ws.length + 1) = (a + 1) + ws.length := by omega
    rw [h, ih]
    rfl

/-! ### Single-step evaluation of enqueue and dequeue on run states -/

theorem enqueue_step {α : Type} {N : Nat} (hN : N ≤ 2 ^ 62) (ws : List α)
    (v : α) (h : ws.length + 1 < N) :
    enqueue N ⟨seqStore 1 ws, 0, ws.length, true⟩ v
      = (Except.ok (), ⟨seqStore 1 (ws ++ [v]), 0, ws.length + 1, true⟩) := by
  have hnext : add64 ws.length 1 % N = ws.length + 1 := by
    rw [add64_eq_of_lt (by have := U64_big; omega)]
    exact Nat.mod_eq_of_lt h
  simp only [enqueue, hnext]
  rw [if_neg (by simp), if_neg (by omega)]
  have h1 : ws.length + 1 = 1 + ws.length := by omega
  rw [h1, storePut_seqStore]

theorem dequeue_step {α : Type} {N j t : Nat} (hN : N ≤ 2 ^ 62) (v : α)
    (vs : List α) (hjt : j < t) (ht : t < N) :
    dequeue N ⟨seqStore (j + 1) (v :: vs), j, t, true⟩
      = (Except.ok v, ⟨seqStore (j + 2) vs, j + 1, t, true⟩) := by
  have hnext : add64 j 1 % N = j + 1 := by
    rw [add64_eq_of_lt (by have := U64_big; omega)]
    exact Nat.mod_eq_of_lt (by omega)
  have hlen : Length N ⟨seqStore (j + 1) (v :: vs), j, t, true⟩ = t - j := by
    rw [Length_eq_of_le hN (le_of_lt hjt) (by show t ≤ 2 ^ 62; omega)]
    show (t - j) % N = t - j
    exact Nat.mod_eq_of_lt (by omega)
  have h0 : t - j ≠ 0 := by omega
  have hget : storeLookup (seqStore (j + 1) (v :: vs)) (j + 1) = Except.ok v := by
    simp [storeLookup, seqStore, storeGet]
  have hdel : storeDelete (seqStore (j + 1) (v :: vs)) (j + 1)
      = seqStore (j + 2) vs := by
    simp [seqStore, storeDelete]
  simp only [dequeue, getValueByID]
  rw [hnext, hlen]
  rw [if_neg (by simp), if_neg h0, if_pos hjt,
    if_neg (by omega : ¬ (j + 1 ≤ j ∨ t < j + 1)), hget, hdel]

/-! ### Whole-run lemmas -/

theorem enqueueAll_run {α : Type} {N : Nat} (hN : N ≤ 2 ^ 62) :
    ∀ (vs ws : List α), ws.length + vs.length < N →
    enqueueAll N ⟨seqStore 1 ws, 0, ws.length, true⟩ vs
      = (Except.ok (), ⟨seqStore 1 (ws ++ vs), 0, ws.length + vs.length, true⟩) := by
  intro vs
  induction vs with
  | nil => intro ws h; simp [enqueueAll]
  | cons v vs ih =>
    intro ws h
    simp only [enqueueAll]
    rw [enqueue_step hN ws v (by simp at h; omega)]
    dsimp only
    have hlen : ws.length + 1 = (ws ++ [v]).length := by simp
    rw [hlen, ih (ws ++ [v]) (by simp at h ⊢; omega)]
    have e1 : (ws ++ [v]) ++ vs = ws ++ v :: vs := by simp
    have e2 : (ws ++ [v]).length + vs.length = ws.length + (v :: vs).length := by
      simp; omega
    rw [e1, e2]

theorem dequeueAll_run {α : Type} {N : Nat} (hN : N ≤ 2 ^ 62) :
    ∀ (m : Nat) (vs : List α) (j t : Nat), m ≤ vs.length →
    t = j + vs.length → t < N →
    dequeueAll N ⟨seqStore (j + 1) vs, j, t, true⟩ m
      = (Except.ok (vs.take m),
         ⟨seqStore (j + 1 + m) (vs.drop m), j + m, t, true⟩) := by
  intro m
  induction m with
  | zero => intro vs j t _ _ _; simp [dequeueAll]
  | succ m ih =>
    intro vs j t hm hteq htN
    match vs with
    | [] => simp at hm
    | v :: vs =>
      simp only [dequeueAll]
      rw [dequeue_step hN v vs (by simp at hteq; omega) htN]
      dsimp only
      have h2 : j + 2 = (j + 1) + 1 := by omega
      rw [h2, ih vs (j + 1) t (by simp at hm; omega) (by simp at hteq; omega) htN]
      dsimp only
      have e1 : j + 1 + 1 + m = j + 1 + (m + 1) := by omega
      have e2 : j + 1 + m = j + (m + 1) := by omega
      rw [e1, e2]
      simp

/-! ### Claim theorems -/

/-- C1: FIFO law — starting from a freshly opened empty queue, a sequence of
`k` enqueues of payloads `v1..vk` (`k < MaxQueueSize`, here the queue-size
parameter `N`) all succeed, and the following `k` dequeues all succeed and
return `v1..vk` in exactly that order. -/
theorem C1_fifo {α : Type} {N : Nat} (hN : N ≤ 2 ^ 62) (vs : List α)
    (hk : vs.length < N) :
    enqueueAll N (OpenQueue ([] : Store α)) vs
      = (Except.ok (), ⟨seqStore 1 vs, 0, vs.length, true⟩) ∧
    dequeueAll N ⟨seqStore 1 vs, 0, vs.length, true⟩ vs.length
      = (Except.ok vs, ⟨[], vs.length, vs.length, true⟩) := by
  constructor
  · have h := enqueueAll_run (α := α) hN vs [] (by simpa using hk)
    simpa [OpenQueue, init, seqStore] using h
  · have h := dequeueAll_run (α := α) hN vs.length vs 0 vs.length le_rfl
      (by omega) hk
    simpa [seqStore] using h

theorem C1_fifo_witness :
    enqueueAll 5 (OpenQueue ([] : Store Nat)) [10, 20, 30]
      = (Except.ok (), ⟨seqStore 1 [10, 20, 30], 0, 3, true⟩) ∧
    dequeueAll 5 (⟨seqStore 1 [10, 20, 30], 0, 3, true⟩ : Queue Nat) 3
      = (Except.ok [10, 20, 30], ⟨[], 3, 3, true⟩) := by
  constructor
  · exact (C1_fifo (by norm_num) [10, 20, 30] (by norm_num)).1
  · exact (C1_fifo (by norm_num) [10, 20, 30] (by norm_num)).2

/-- C2: recovery — `init` over a store whose ascending key enumeration is
nonempty sets `head = decode(firstKey) - 1` (uint64 subtraction, i.e.
`(decode(firstKey) + 2^64 - 1) mod 2^64`, which equals `decode(firstKey) - 1`
whenever the first key is at least 1) and `tail = decode(lastKey)`; over an
empty store it leaves `head = tail = 0`. -/
theorem C2_recovery {α : Type} (s : Store α) (kf kl : Nat) (vf vl : α)
    (hf : s.head? = some (kf, vf)) (hl : s.getLast? = some (kl, vl))
    (hkf : kf < 2 ^ 64) :
    (OpenQueue s).head = (kf + (2 ^ 64 - 1)) % 2 ^ 64 ∧
    (OpenQueue s).tail = kl ∧
    (1 ≤ kf → (OpenQueue s).head = kf - 1) ∧
    (OpenQueue ([] : Store α)).head = 0 ∧
    (OpenQueue ([] : Store α)).tail = 0 := by
  have hhead : (OpenQueue s).head = sub64 kf 1 := by
    simp [OpenQueue, init, hf, hl]
  have htail : (OpenQueue s).tail = kl := by
    simp [OpenQueue, init, hf, hl]
  have hsub : sub64 kf 1 = (kf + (2 ^ 64 - 1)) % 2 ^ 64 := by
    unfold sub64 U64; norm_num
  refine ⟨hhead.trans hsub, htail, ?_, by simp [OpenQueue, init],
    by simp [OpenQueue, init]⟩
  intro h1
  rw [hhead, hsub]
  have h64 : (2 : Nat) ^ 64 = 18446744073709551616 := by norm_num
  omega

theorem C2_recovery_witness :
    (OpenQueue [((1 : Nat), (10 : Nat)), (3, 20)]).head = 1 - 1 ∧
    (OpenQueue [((1 : Nat), (10 : Nat)), (3, 20)]).tail = 3 := by
  have h := C2_recovery [((1 : Nat), (10 : Nat)), (3, 20)] 1 3 10 20
    (by decide) (by decide) (by norm_num)
  exact ⟨h.2.2.1 (by norm_num), h.2.1⟩

/-- C3 counterexample: opening a queue over a store whose only key decodes
to identifier 0 makes `init` compute `head = 0 - 1` in uint64 arithmetic,
i.e. `head = 2^64 - 1`, which is not below `MaxQueueSize`; so the claimed
invariant does not hold after `OpenQueue`/`init` on arbitrary backing-store
contents. -/
theorem C3_state_invariant_cex :
    ¬ ((OpenQueue [((0 : Nat), (0 : Nat))]).head < MaxQueueSize) := by decide

/-- C3 (amended): `enqueue`, `dequeue` and `close` each preserve
`head, tail ∈ [0, N)`; `OpenQueue`/`init` establishes it provided the store
is empty or every stored key decodes to an identifier in `[1, N)` — but not
on arbitrary store contents (see the counterexample, where a key decoding
to 0 underflows `head` to `2^64 - 1`). -/
theorem C3_state_invariant {α : Type} {N : Nat} (hN1 : 1 ≤ N)
    (hN : N ≤ 2 ^ 62) (q : Queue α) (v : α) (r : Option StoreErr)
    (s : Store α) (hh : q.head < N) (ht : q.tail < N)
    (hs : ∀ kv ∈ s, 1 ≤ kv.1 ∧ kv.1 < N) :
    ((enqueue N q v).2.head < N ∧ (enqueue N q v).2.tail < N) ∧
    ((dequeue N q).2.head < N ∧ (dequeue N q).2.tail < N) ∧
    ((close r q).2.head < N ∧ (close r q).2.tail < N) ∧
    ((OpenQueue s).head < N ∧ (OpenQueue s).tail < N) := by
  refine ⟨?_, ?_, ?_, ?_⟩
  · by_cases ho : q.isOpen = false
    · simp [enqueue, ho, hh, ht]
    · by_cases hfull : add64 q.tail 1 % N = q.head
      · simp [enqueue, ho, hfull, hh, ht]
      · simp only [enqueue, if_neg ho, if_neg hfull]
        exact ⟨hh, Nat.mod_lt _ (by omega)⟩
  · by_cases ho : q.isOpen = false
    · simp [dequeue, ho, hh, ht]
    · cases hg : getValueByID N q (add64 q.head 1 % N) with
      | error e => simp [dequeue, ho, hg, hh, ht]
      | ok w =>
        simp only [dequeue, if_neg ho, hg]
        exact ⟨Nat.mod_lt _ (by omega), ht⟩
  · by_cases ho : q.isOpen = false
    · simp [close, ho, hh, ht]
    · cases r with
      | some e => simp [close, ho, hh, ht]
      | none => simp [close, ho]; omega
  · match s with
    | [] =>
      constructor
      · simp [OpenQueue, init]; omega
      · simp [OpenQueue, init]; omega
    | p :: rest =>
      have hne : p :: rest ≠ [] := by simp
      have hlast : (p :: rest).getLast? = some ((p :: rest).getLast hne) :=
        List.getLast?_eq_getLast_of_ne_nil hne
      have hmemL : (p :: rest).getLast hne ∈ p :: rest := List.getLast_mem hne
      have hp := hs p (by simp)
      have hl := hs _ hmemL
      have hhead : (OpenQueue (p :: rest)).head = sub64 p.1 1 := by
        simp [OpenQueue, init, hlast]
      have htail : (OpenQueue (p :: rest)).tail = ((p :: rest).getLast hne).1 := by
        simp [OpenQueue, init, hlast]
      constructor
      · rw [hhead, sub64_eq_of_le hp.1 (by have := U64_big; omega)]
        omega
      · rw [htail]; exact hl.2

theorem C3_state_invariant_witness :
    ((enqueue 5 (⟨[], 0, 0, true⟩ : Queue Nat) 7).2.head < 5 ∧
     (enqueue 5 (⟨[], 0, 0, true⟩ : Queue Nat) 7).2.tail < 5) ∧
    ((dequeue 5 (⟨[], 0, 0, true⟩ : Queue Nat)).2.head < 5 ∧
     (dequeue 5 (⟨[], 0, 0, true⟩ : Queue Nat)).2.tail < 5) ∧
    ((close none (⟨[], 0, 0, true⟩ : Queue Nat)).2.head < 5 ∧
     (close none (⟨[], 0, 0, true⟩ : Queue Nat)).2.tail < 5) ∧
    ((OpenQueue [((1 : Nat), (9 : Nat))]).head < 5 ∧
     (OpenQueue [((1 : Nat), (9 : Nat))]).tail < 5) :=
  C3_state_invariant (by norm_num) (by norm_num) ⟨[], 0, 0, true⟩ 7 none
    [(1, 9)] (by norm_num) (by norm_num) (by decide)

/-- C4 counterexample: in `getValueByID`, a lookup that passes the
emptiness and ring-bounds checks but finds no entry under the key returns
the store's not-found error verbatim (`if value, err = q.db.Get(key, nil);
err != nil { return nil, err }`): with `head = 0`, `tail = 2`, store
containing only key 1, id 2 passes the checks and yields the not-found
error, not `OutOfBounds`. -/
theorem C4_notfound_cex :
    getValueByID MaxQueueSize (⟨[(1, 7)], 0, 2, true⟩ : Queue Nat) 2
      = Except.error QueueErr.storeNotFound ∧
    QueueErr.storeNotFound ≠ QueueErr.outOfBounds := by
  constructor
  · rfl
  · decide

/-- C4 (amended): when `getValueByID` is called with an id that passes the
emptiness and ring-bounds checks but the store holds no entry under
`encode(id)`, the store's not-found error is propagated to the caller
unchanged (it is not converted to `OutOfBounds`). -/
theorem C4_notfound {α : Type} {N : Nat} (q : Queue α) (id : Nat)
    (hlen : ¬ (Length N q = 0))
    (h1 : q.head < q.tail → q.head < id ∧ id ≤ q.tail)
    (h2 : q.tail < q.head → ¬ (q.tail < id ∧ id ≤ q.head))
    (hmiss : storeGet q.store id = none) :
    getValueByID N q id = Except.error QueueErr.storeNotFound := by
  unfold getValueByID
  rw [if_neg hlen]
  have hsl : storeLookup q.store id = Except.error QueueErr.storeNotFound := by
    simp [storeLookup, hmiss]
  rcases Nat.lt_trichotomy q.head q.tail with h | h | h
  · rw [if_pos h, if_neg (by have := h1 h; omega)]
    exact hsl
  · rw [if_neg (by omega), if_neg (by omega)]
    exact hsl
  · rw [if_neg (by omega), if_pos h, if_neg (h2 h)]
    exact hsl

theorem C4_notfound_witness :
    getValueByID 5 (⟨[(1, 7)], 0, 2, true⟩ : Queue Nat) 2
      = Except.error QueueErr.storeNotFound :=
  C4_notfound _ 2 (by decide) (by decide) (by decide) (by decide)

/-- C5: full with atomicity — on an open queue with
`(tail + 1) mod N == head`, `enqueue` fails with `Full` and returns the
state unchanged (so no key is written to the store). -/
theorem C5_full {α : Type} {N : Nat} (q : Queue α) (v : α)
    (ho : q.isOpen = true) (hfull : add64 q.tail 1 % N = q.head) :
    enqueue N q v = (Except.error QueueErr.full, q) := by
  simp [enqueue, ho, hfull]

theorem C5_full_witness :
    enqueue 5 (⟨[], 0, 4, true⟩ : Queue Nat) 7
      = (Except.error QueueErr.full, (⟨[], 0, 4, true⟩ : Queue Nat)) :=
  C5_full _ 7 (by decide) (by decide)

/-- C6: empty with atomicity — `dequeue` on an open queue with
`head == tail` fails with `Empty` and returns the state unchanged. -/
theorem C6_empty {α : Type} {N : Nat} (q : Queue α) (ho : q.isOpen = true)
    (heq : q.head = q.tail) (hN : N ≤ 2 ^ 62) :
    dequeue N q = (Except.error QueueErr.empty, q) := by
  have hlen : Length N q = 0 :=
    Length_eq_zero_of_eq (by have := U64_big; omega) heq
  have hg : getValueByID N q (add64 q.head 1 % N)
      = Except.error QueueErr.empty := by
    unfold getValueByID
    rw [if_pos hlen]
  simp [dequeue, ho, hg]

theorem C6_empty_witness :
    dequeue 5 (⟨[], 2, 2, true⟩ : Queue Nat)
      = (Except.error QueueErr.empty, (⟨[], 2, 2, true⟩ : Queue Nat)) :=
  C6_empty _ (by decide) (by decide) (by norm_num)

/-- C7: length — after `k` successful enqueues and `j ≤ k < N` dequeues on
a freshly opened empty queue, `Length` returns `k - j`; moreover for any
in-range `head`/`tail` the computed value equals the ideal
`(N + tail - head) mod N`, and across wraparound (`tail < head`) it is
exactly `N + tail - head`. -/
theorem C7_length {α : Type} {N : Nat} (hN : N ≤ 2 ^ 62) (vs : List α)
    (j : Nat) (hk : vs.length < N) (hj : j ≤ vs.length)
    (q : Queue α) (hh : q.head < N) (ht : q.tail < N) :
    Length N (dequeueAll N (enqueueAll N (OpenQueue ([] : Store α)) vs).2 j).2
      = vs.length - j ∧
    Length N q = (N + q.tail - q.head) % N ∧
    (q.tail < q.head → Length N q = N + q.tail - q.head) := by
  refine ⟨?_, ?_, ?_⟩
  · have h1 := enqueueAll_run (α := α) hN vs [] (by simpa using hk)
    have h0 : enqueueAll N (OpenQueue ([] : Store α)) vs
        = (Except.ok (), ⟨seqStore 1 vs, 0, vs.length, true⟩) := by
      simpa [OpenQueue, init, seqStore] using h1
    rw [h0]
    dsimp only
    have h2 := dequeueAll_run (α := α) hN j vs 0 vs.length hj (by omega) hk
    simp only [Nat.zero_add] at h2
    rw [h2]
    dsimp only
    rw [Length_eq_of_le hN (by show j ≤ vs.length; omega)
      (by show vs.length ≤ 2 ^ 62; omega)]
    show (vs.length - j) % N = vs.length - j
    exact Nat.mod_eq_of_lt (by omega)
  · rcases Nat.lt_or_ge q.tail q.head with hlt | hge
    · rw [Length_eq_of_gt hN hlt hh]
      exact (Nat.mod_eq_of_lt (by omega)).symm
    · rw [Length_eq_of_le hN hge (by omega)]
      have h : N + q.tail - q.head = (q.tail - q.head) + N := by omega
      rw [h, Nat.add_mod_right]
  · intro hlt
    exact Length_eq_of_gt hN hlt hh

theorem C7_length_witness :
    Length 5 (dequeueAll 5
      (enqueueAll 5 (OpenQueue ([] : Store Nat)) [1, 2, 3]).2 1).2 = 2 ∧
    Length 5 (⟨[], 3, 1, true⟩ : Queue Nat) = (5 + 1 - 3) % 5 ∧
    Length 5 (⟨[], 3, 1, true⟩ : Queue Nat) = 5 + 1 - 3 := by
  have h := C7_length (N := 5) (by norm_num) [1, 2, 3] 1 (by norm_num)
    (by norm_num) (⟨[], 3, 1, true⟩ : Queue Nat) (by norm_num) (by norm_num)
  exact ⟨h.1, h.2.1, h.2.2 (by norm_num)⟩

/-- `storeLookup` only ever returns the value or the store's not-found
error; it never produces `OutOfBounds`. -/
theorem storeLookup_ne_oob {α : Type} (s : Store α) (id : Nat) :
    storeLookup s id ≠ Except.error QueueErr.outOfBounds := by
  unfold storeLookup
  cases storeGet s id <;> simp

/-- C8: bounds-check policy of `getValueByID` for `head, tail ∈ [0, N)`:
with `head == tail` every id fails with `Empty`; with `head < tail` the
result is `OutOfBounds` exactly for `id ≤ head` or `id > tail`, and ids in
`(head, tail]` proceed to the store lookup; with `tail < head` the result
is `OutOfBounds` exactly for ids in `(tail, head]`, and every other id
proceeds to the store lookup. -/
theorem C8_bounds {α : Type} {N : Nat} (hN : N ≤ 2 ^ 62) (q : Queue α)
    (id : Nat) (hh : q.head < N) (ht : q.tail < N) :
    (q.head = q.tail → getValueByID N q id = Except.error QueueErr.empty) ∧
    (q.head < q.tail →
      (getValueByID N q id = Except.error QueueErr.outOfBounds
        ↔ (id ≤ q.head ∨ q.tail < id)) ∧
      (q.head < id ∧ id ≤ q.tail →
        getValueByID N q id = storeLookup q.store id)) ∧
    (q.tail < q.head →
      (getValueByID N q id = Except.error QueueErr.outOfBounds
        ↔ (q.tail < id ∧ id ≤ q.head)) ∧
      (¬ (q.tail < id ∧ id ≤ q.head) →
        getValueByID N q id = storeLookup q.store id)) := by
  refine ⟨?_, ?_, ?_⟩
  · intro heq
    have hlen : Length N q = 0 :=
      Length_eq_zero_of_eq (by have := U64_big; omega) heq
    unfold getValueByID
    rw [if_pos hlen]
  · intro hlt
    have hlen : ¬ (Length N q = 0) := by
      rw [Length_eq_of_le hN (le_of_lt hlt) (by omega),
        Nat.mod_eq_of_lt (by omega)]
      omega
    unfold getValueByID
    rw [if_neg hlen, if_pos hlt]
    by_cases hc : id ≤ q.head ∨ q.tail < id
    · rw [if_pos hc]
      exact ⟨by simp [hc], fun h => by omega⟩
    · rw [if_neg hc]
      exact ⟨⟨fun h => absurd h (storeLookup_ne_oob q.store id),
        fun h => absurd h hc⟩, fun _ => rfl⟩
  · intro hlt
    have hlen : ¬ (Length N q = 0) := by
      rw [Length_eq_of_gt hN hlt hh]
      omega
    unfold getValueByID
    rw [if_neg hlen, if_neg (by omega), if_pos hlt]
    by_cases hc : q.tail < id ∧ id ≤ q.head
    · rw [if_pos hc]
      exact ⟨by simp [hc], fun h => absurd hc h⟩
    · rw [if_neg hc]
      exact ⟨⟨fun h => absurd h (storeLookup_ne_oob q.store id),
        fun h => absurd h hc⟩, fun _ => rfl⟩

theorem C8_bounds_witness :
    (getValueByID 5 (⟨[], 2, 2, true⟩ : Queue Nat) 0
        = Except.error QueueErr.empty) ∧
    (getValueByID 5 (⟨[(2, 9)], 1, 2, true⟩ : Queue Nat) 3
        = Except.error QueueErr.outOfBounds) ∧
    (getValueByID 5 (⟨[(2, 9)], 1, 2, true⟩ : Queue Nat) 2
        = storeLookup [(2, 9)] 2) ∧
    (getValueByID 5 (⟨[(4, 9)], 3, 1, true⟩ : Queue Nat) 2
        = Except.error QueueErr.outOfBounds) ∧
    (getValueByID 5 (⟨[(4, 9)], 3, 1, true⟩ : Queue Nat) 4
        = storeLookup [(4, 9)] 4) := by
  refine ⟨?_, ?_, ?_, ?_, ?_⟩
  · exact (C8_bounds (N := 5) (by norm_num) ⟨[], 2, 2, true⟩ 0
      (by norm_num) (by norm_num)).1 rfl
  · exact ((C8_bounds (N := 5) (by norm_num) ⟨[(2, 9)], 1, 2, true⟩ 3
      (by norm_num) (by norm_num)).2.1 (by norm_num)).1.mpr (by decide)
  · exact ((C8_bounds (N := 5) (by norm_num) ⟨[(2, 9)], 1, 2, true⟩ 2
      (by norm_num) (by norm_num)).2.1 (by norm_num)).2 (by decide)
  · exact ((C8_bounds (N := 5) (by norm_num) ⟨[(4, 9)], 3, 1, true⟩ 2
      (by norm_num) (by norm_num)).2.2 (by norm_num)).1.mpr (by decide)
  · exact ((C8_bounds (N := 5) (by norm_num) ⟨[(4, 9)], 3, 1, true⟩ 4
      (by norm_num) (by norm_num)).2.2 (by norm_num)).2 (by decide)

/-- C9: close semantics — `close` on an already-closed queue returns
success and changes nothing; on an open queue whose store close succeeds it
resets `head = tail = 0` and clears `isOpen`, after which `enqueue` and
`dequeue` fail with `DBClosed` (leaving the state unchanged) and `Length`
returns 0. -/
theorem C9_close {α : Type} {N : Nat} (hN : N ≤ 2 ^ 62)
    (qc qo : Queue α) (v : α) (r : Option StoreErr)
    (hc : qc.isOpen = false) (ho : qo.isOpen = true) :
    close r qc = (Except.ok (), qc) ∧
    close none qo = (Except.ok (), ⟨qo.store, 0, 0, false⟩) ∧
    enqueue N (⟨qo.store, 0, 0, false⟩ : Queue α) v
      = (Except.error QueueErr.dbClosed, ⟨qo.store, 0, 0, false⟩) ∧
    dequeue N (⟨qo.store, 0, 0, false⟩ : Queue α)
      = (Except.error QueueErr.dbClosed, ⟨qo.store, 0, 0, false⟩) ∧
    Length N (⟨qo.store, 0, 0, false⟩ : Queue α) = 0 := by
  refine ⟨?_, ?_, ?_, ?_, ?_⟩
  · simp [close, hc]
  · simp [close, ho]
  · simp [enqueue]
  · simp [dequeue]
  · exact Length_eq_zero_of_eq (by have := U64_big; omega) rfl

theorem C9_close_witness :
    close (some (StoreErr.ioErr 3)) (⟨[], 0, 0, false⟩ : Queue Nat)
      = (Except.ok (), (⟨[], 0, 0, false⟩ : Queue Nat)) ∧
    close none (⟨[(1, 5)], 0, 1, true⟩ : Queue Nat)
      = (Except.ok (), ⟨[(1, 5)], 0, 0, false⟩) ∧
    enqueue 5 (⟨[(1, 5)], 0, 0, false⟩ : Queue Nat) 7
      = (Except.error QueueErr.dbClosed, ⟨[(1, 5)], 0, 0, false⟩) ∧
    dequeue 5 (⟨[(1, 5)], 0, 0, false⟩ : Queue Nat)
      = (Except.error QueueErr.dbClosed, ⟨[(1, 5)], 0, 0, false⟩) ∧
    Length 5 (⟨[(1, 5)], 0, 0, false⟩ : Queue Nat) = 0 :=
  C9_close (N := 5) (by norm_num) ⟨[], 0, 0, false⟩ ⟨[(1, 5)], 0, 1, true⟩
    7 (some (StoreErr.ioErr 3)) (by decide) (by decide)

/-- C10: `Drop` on an already-closed queue — `close` reports success
immediately (without consulting the store), so `Drop` proceeds to the
directory removal and returns the removal's result; the queue state is
unchanged. -/
theorem C10_drop {α : Type} (q : Queue α) (closeR removeR : Option StoreErr)
    (hc : q.isOpen = false) :
    Drop closeR removeR q = (rmResult removeR, true, q) := by
  unfold Drop
  have h : close closeR q = (Except.ok (), q) := by simp [close, hc]
  rw [h]

theorem C10_drop_witness :
    Drop (some (StoreErr.ioErr 1)) none (⟨[(1, 5)], 0, 1, false⟩ : Queue Nat)
      = (Except.ok (), true, (⟨[(1, 5)], 0, 1, false⟩ : Queue Nat)) :=
  C10_drop _ (some (StoreErr.ioErr 1)) none (by decide)

end LevelQ
